import Mathlib

set_option maxHeartbeats 1000000

namespace ReleaseWithEase

/-! Shallow embedding of `bin/release-with-ease.js`.

JS strings are modelled as Lean `String` (a wrapper around `List Char`);
the char-level helpers below reimplement the exact JS string primitives
the script uses (`split` with a one-character separator, `trim`,
`toLowerCase`, `parseInt(_, 10)`, `Array.prototype.join('\n')`).
Numbers produced by `parseInt` are modelled as exact integers (IEEE
doubles are exact on the magnitudes a semver component holds; float
rounding is outside this model), with `NaN` and `undefined` as explicit
extra values where the code can observe them. -/

/-- Characters of the JS `\s` class, which is also the set removed by
`String.prototype.trim` (WhiteSpace ∪ LineTerminator). -/
def jsIsWs (c : Char) : Bool :=
  [' ', '\t', '\n', '\r', '\x0b', '\x0c', '\u00A0', '\u1680', '\u2028',
      '\u2029', '\u202F', '\u205F', '\u3000', '\uFEFF'].contains c
    || ('\u2000' ≤ c && c ≤ '\u200A')

/-- Char-level `String.prototype.trim`. -/
def trimC (l : List Char) : List Char :=
  (((l.dropWhile jsIsWs).reverse).dropWhile jsIsWs).reverse

/-- JS `s.trim()`. -/
def jsTrim (s : String) : String := ⟨trimC s.data⟩

/-- Char-level `String.prototype.split` with a one-character separator:
`"".split(sep)` is `[""]`, and every separator occurrence cuts. -/
def splitC (sep : Char) : List Char → List (List Char)
  | [] => [[]]
  | c :: cs =>
    if c = sep then [] :: splitC sep cs
    else
      match splitC sep cs with
      | [] => [[c]]
      | t :: ts => (c :: t) :: ts

/-- JS `s.split(sep)` for a one-character separator string. -/
def jsSplit (sep : Char) (s : String) : List String :=
  (splitC sep s.data).map (fun cs => ⟨cs⟩)

/-- Char-level `Array.prototype.join(sep)` for an array of strings. -/
def joinC (sep : Char) : List (List Char) → List Char
  | [] => []
  | [l] => l
  | l :: l' :: ls => l ++ sep :: joinC sep (l' :: ls)

/-- JS `lines.join('\n')`. -/
def joinNL (ls : List String) : String := ⟨joinC '\n' (ls.map String.data)⟩

/-- ASCII lowering, the fragment of JS `toLowerCase` the script relies on
(all strings it compares against are ASCII). -/
def lcChar (c : Char) : Char :=
  if 'A' ≤ c && c ≤ 'Z' then Char.ofNat (c.toNat + 32) else c

/-- JS `s.toLowerCase()` (ASCII fragment). -/
def jsToLower (s : String) : String := ⟨s.data.map lcChar⟩

/-- Numeric value of a decimal digit character. -/
def digitToNat (c : Char) : Nat := c.toNat - 48

/-- Accumulate the leading run of decimal digits, as `parseInt` does once
it has seen at least one digit. -/
def parseNatAux : List Char → Nat → Nat
  | c :: cs, acc => if c.isDigit then parseNatAux cs (acc * 10 + digitToNat c) else acc
  | [], acc => acc

/-- The leading decimal-digit run of a character list, `none` when the
first character is not a digit (the `NaN` case of `parseInt`). -/
def leadingNat : List Char → Option Nat
  | c :: cs => if c.isDigit then some (parseNatAux (c :: cs) 0) else none
  | [] => none

/-- JS `parseInt(s, 10)`: skip leading whitespace, optional sign, then the
longest digit run; `none` models `NaN` (no digit found). -/
def parseIntChars (s : List Char) : Option Int :=
  match s.dropWhile jsIsWs with
  | '-' :: rest => (leadingNat rest).map (fun n => -(n : Int))
  | '+' :: rest => (leadingNat rest).map (fun n => (n : Int))
  | rest => (leadingNat rest).map (fun n => (n : Int))

/-- A JS numeric slot as `bumpVersionString` can observe it: a real
number, `NaN`, or `undefined` (from destructuring a too-short array). -/
inductive JNum
  | num (n : Int)
  | nan
  | undef
deriving DecidableEq

/-- JS `parseInt(s, 10)` producing a JS number (`NaN` when unparseable). -/
def jsParseInt10 (s : List Char) : JNum :=
  match parseIntChars s with
  | some n => .num n
  | none => .nan

/-- JS `Number.isNaN`: true only on an actual `NaN` value; in particular
`Number.isNaN(undefined)` is `false`. -/
def jsIsNaN : JNum → Bool
  | .nan => true
  | _ => false

/-- Adding 1 to a JS numeric slot: `NaN` or `undefined` plus one gives `NaN`. -/
def jnumAdd1 : JNum → JNum
  | .num n => .num (n + 1)
  | _ => .nan

/-- Decimal digits of a natural number (fuel-driven; fuel `n + 1` suffices). -/
def natToCharsAux : Nat → Nat → List Char → List Char
  | 0, _, acc => acc
  | f + 1, n, acc =>
    if n < 10 then Char.ofNat (48 + n) :: acc
    else natToCharsAux f (n / 10) (Char.ofNat (48 + n % 10) :: acc)

/-- Decimal rendering of a natural number, as JS stringifies it. -/
def natToChars (n : Nat) : List Char := natToCharsAux (n + 1) n []

/-- Decimal rendering of an integer, as JS stringifies it. -/
def intToChars (n : Int) : List Char :=
  if n < 0 then '-' :: natToChars n.natAbs else natToChars n.toNat

/-- Template-literal rendering of a JS numeric slot. -/
def jnumChars : JNum → List Char
  | .num n => intToChars n
  | .nan => ['N', 'a', 'N']
  | .undef => ['u', 'n', 'd', 'e', 'f', 'i', 'n', 'e', 'd']

/-- Source `bumpVersionString(cur, bump)` (lines 136-144):
split on dots, `parseInt` each part, destructure the first three
(missing parts become `undefined`), throw when any of the three is `NaN`,
then rebuild the next version with a template literal.  The thrown
`Error` is modelled as `Except.error` carrying the message. -/
def bumpVersionString (cur bump : String) : Except String String :=
  let parts := (splitC '.' cur.data).map jsParseInt10
  let maj := parts.getD 0 .undef
  let mi := parts.getD 1 .undef
  let pa := parts.getD 2 .undef
  if jsIsNaN maj || jsIsNaN mi || jsIsNaN pa then
    .error ("Invalid version in package.json: " ++ cur)
  else if bump = "major" then .ok ⟨jnumChars (jnumAdd1 maj) ++ '.' :: '0' :: '.' :: ['0']⟩
  else if bump = "minor" then .ok ⟨jnumChars maj ++ '.' :: (jnumChars (jnumAdd1 mi) ++ '.' :: ['0'])⟩
  else .ok ⟨jnumChars maj ++ '.' :: (jnumChars mi ++ '.' :: jnumChars (jnumAdd1 pa))⟩

/-- The dotted rendering `a.b.c` of three non-negative components, used to
state what `bumpVersionString` returns on a well-formed version. -/
def versionString (a b c : Nat) : String :=
  ⟨natToChars a ++ '.' :: (natToChars b ++ '.' :: natToChars c)⟩

/-- The blank-line test `lines[i].trim() === ''` of the insertion loop. -/
def isBlank (l : String) : Bool := jsTrim l = ""

/-- The test `/^#\s*Changelog\s*$/i.test(l.trim())` (source line 149).
After `trim` the line has no edge whitespace, so the regex matches
exactly when the trimmed line is `#`, then optional whitespace, then
`changelog` case-insensitively, and nothing else — in particular exactly
one `#` marker. -/
def isChangelogHeading (l : String) : Bool :=
  match trimC l.data with
  | '#' :: rest =>
    (rest.dropWhile jsIsWs).map lcChar = ['c', 'h', 'a', 'n', 'g', 'e', 'l', 'o', 'g']
  | _ => false

/-- JS `Array.prototype.findIndex`, with `none` for the `-1` result. -/
def findIdxOpt (p : String → Bool) : List String → Option Nat
  | [] => none
  | l :: ls => if p l then some 0 else (findIdxOpt p ls).map (· + 1)

/-- Length of the leading all-blank run: the number of iterations of the
`while (insertAt < lines.length && lines[insertAt].trim() === '')` loop
(source lines 158-160) over the suffix after the heading. -/
def countLeadingBlank : List String → Nat
  | [] => 0
  | l :: ls => if isBlank l then countLeadingBlank ls + 1 else 0

/-- The final value of `insertAt` (source lines 157-160). -/
def insertPos (lines : List String) (changelogIdx : Nat) : Nat :=
  changelogIdx + 1 + countLeadingBlank (lines.drop (changelogIdx + 1))

/-- Source `insertChangelogEntry(readmeContent, newReadmeLines)` (lines
146-166): split into lines, find the `# Changelog` heading (throwing when
absent), skip the blank lines after it, splice in the new lines followed
by one empty line, and re-join with `\n`. -/
def insertChangelogEntry (readmeContent : String) (newReadmeLines : List String) :
    Except String String :=
  let lines := jsSplit '\n' readmeContent
  match findIdxOpt isChangelogHeading lines with
  | none => .error "Could not find \"# Changelog\" section in README.md"
  | some changelogIdx =>
    let insertAt := insertPos lines changelogIdx
    .ok (joinNL (lines.take insertAt ++ newReadmeLines ++ [""] ++ lines.drop insertAt))

/-- A parsed JSON value, as far as the advisor-response validation
inspects one.  Object entries are never looked into by the validation,
so the `obj` constructor carries no payload. -/
inductive Json
  | null
  | bool (b : Bool)
  | num (n : Int)
  | str (s : String)
  | arr (elems : List Json)
  | obj

/-- JS truthiness of a present value. -/
def jsTruthy : Json → Bool
  | .null => false
  | .bool b => b
  | .num n => n ≠ 0
  | .str s => s ≠ ""
  | .arr _ => true
  | .obj => true

/-- JS truthiness of a possibly-absent object field (`undefined` is falsy). -/
def jsTruthyOpt : Option Json → Bool
  | none => false
  | some v => jsTruthy v

/-- JS `['major','minor','patch'].includes(x)`: strict equality, so only the
three exact strings pass. -/
def includesBumpKeyword : Option Json → Bool
  | some (.str s) => s = "major" || s = "minor" || s = "patch"
  | _ => false

/-- JS `Array.isArray` on a possibly-absent field. -/
def isArrayOpt : Option Json → Bool
  | some (.arr _) => true
  | _ => false

mutual

/-- Template-literal stringification of a JSON value, as ``- ${note}``
renders a note. -/
def jsToStr : Json → String
  | .null => "null"
  | .bool true => "true"
  | .bool false => "false"
  | .num n => ⟨intToChars n⟩
  | .str s => s
  | .arr xs => jsToStrList xs
  | .obj => "[object Object]"

/-- JS array stringification: elements joined with commas. -/
def jsToStrList : List Json → String
  | [] => ""
  | [x] => jsToStr x
  | x :: y :: xs => jsToStr x ++ "," ++ jsToStrList (y :: xs)

end

/-- The elements of a notes field once it is known to be an array. -/
def notesElems : Option Json → List Json
  | some (.arr l) => l
  | _ => []

/-- The fields of the JSON object parsed out of the advisor completion;
`none` models an absent field (`undefined`). -/
structure AdvisorResponse where
  bump : Option Json
  reasoning : Option Json
  notes : Option Json

/-- The value `askOpenAIForRelease` resolves with after validation. -/
structure ReleaseAdvice where
  bump : Json
  reasoning : Json
  notes : List String

/-- The validation of the parsed advisor response (source lines 119-133):
reject a falsy or unrecognized `bump`, a falsy `reasoning`, and a falsy
or non-array `notes`; on success keep the fields and prefix each note
with a bullet.  Thrown `Error`s are modelled as `Except.error`. -/
def validateOpenAIResponse (p : AdvisorResponse) : Except String ReleaseAdvice :=
  if !jsTruthyOpt p.bump || !includesBumpKeyword p.bump then
    .error "Invalid bump value in OpenAI response"
  else if !jsTruthyOpt p.reasoning then
    .error "Missing reasoning in OpenAI response"
  else if !jsTruthyOpt p.notes || !isArrayOpt p.notes then
    .error "Missing or invalid notes array in OpenAI response"
  else
    .ok { bump := (p.bump).getD .null
          reasoning := (p.reasoning).getD .null
          notes := (notesElems p.notes).map (fun note => "- " ++ jsToStr note) }

/-- Whether the confirmation prompt is reached: `main` awaits
`askOpenAIForRelease` (source line 228) before showing
the bump-confirmation prompt (line 235); a validation throw propagates to
the catch block and exits first.  So the prompt is reached exactly when
validation succeeds. -/
def confirmPromptReached (p : AdvisorResponse) : Bool :=
  (validateOpenAIResponse p).isOk

/-- The confirmation-prompt decision (source lines 234-244): trim and
lowercase the reply; an explicit bump keyword overrides, `n`/`no` aborts
(`none`), anything else keeps the suggested bump. -/
def confirmBump (reply suggested : String) : Option String :=
  let confirm := jsToLower (jsTrim reply)
  if confirm = "major" ∨ confirm = "minor" ∨ confirm = "patch" then some confirm
  else if confirm = "n" ∨ confirm = "no" then none
  else some suggested

/-- Source `editedEntry.trim().split('\n')` (line 307). -/
def entryLinesOf (editedEntry : String) : List String :=
  jsSplit '\n' (jsTrim editedEntry)

/-- How a run that already created the temporary entry file terminates. -/
inductive ExitPath
  | editorFailure
  | abortedEditorDiscard
  | dryRunDone
  | persisted (newReadme : String)
  | errorAfterEdit (msg : String)
deriving DecidableEq

/-- The part of `main` after the temporary entry file is written (source
lines 259-325), abstracted over the outcomes of the external steps.  The
returned Boolean is whether the temporary file still exists when the
process exits.  Paths, in source order: editor launch fails → `unlinkSync`
then exit (278-279); the edited file no longer exists → exit, nothing to
remove (283-286); dry run → `unlinkSync` then return (288-300); otherwise
`insertChangelogEntry` runs (305) before `unlinkSync` (310), so a throw
there reaches the catch block (322-325), which exits without removing the
file; on success the file is removed before the git/npm commands run. -/
def mainAfterTempCreated (dryRun editorOk savedExists : Bool)
    (editedEntry readme : String) : ExitPath × Bool :=
  if editorOk = false then (.editorFailure, false)
  else if savedExists = false then (.abortedEditorDiscard, false)
  else if dryRun then (.dryRunDone, false)
  else
    match insertChangelogEntry readme (entryLinesOf editedEntry) with
    | .ok updated => (.persisted updated, false)
    | .error e => (.errorAfterEdit e, true)

/-- The record built for one commit chunk (source lines 73-74).  `hash`
has no `|| ''` default in the source, so an `undefined` there would be
representable; `subject` and `body` are defaulted to `''`. -/
structure CommitRecord where
  hash : Option String
  subject : String
  body : String
deriving DecidableEq

/-- JS `x || ''` on a possibly-absent string field. -/
def jsOrEmptyStr : Option String → String
  | some s => s
  | none => ""

/-- The per-chunk record constructor of `parseCommits`. -/
def mkCommitRecord (chunk : String) : CommitRecord :=
  let fields := jsSplit '\x1f' chunk
  { hash := fields[0]?
    subject := jsOrEmptyStr fields[1]?
    body := jsOrEmptyStr fields[2]? }

/-- Source `parseCommits(raw)` (lines 66-76): empty input short-circuits
(`!raw`), otherwise split on the record separator, trim each chunk, drop
falsy (empty) chunks, and build a record from each remaining chunk. -/
def parseCommits (raw : String) : List CommitRecord :=
  if raw = "" then []
  else
    ((((jsSplit '\x1e' raw).map jsTrim).filter (fun c => !(c == ""))).map mkCommitRecord)

/-! ### Helper lemmas about the embedded string primitives -/

theorem string_mk_data (s : String) : (⟨s.data⟩ : String) = s := by
  cases s
  rfl

theorem splitC_ne_nil (sep : Char) (s : List Char) : splitC sep s ≠ [] := by
  induction s with
  | nil => simp [splitC]
  | cons c cs ih =>
    by_cases hc : c = sep
    · simp [splitC, if_pos hc]
    · rw [splitC, if_neg hc]
      cases hs : splitC sep cs with
      | nil => simp
      | cons t ts => simp

theorem sep_not_mem_of_mem_splitC {sep : Char} {s l : List Char}
    (h : l ∈ splitC sep s) : sep ∉ l := by
  induction s generalizing l with
  | nil =>
    simp only [splitC, List.mem_singleton] at h
    subst h
    simp
  | cons c cs ih =>
    by_cases hc : c = sep
    · rw [splitC, if_pos hc] at h
      rcases List.mem_cons.mp h with rfl | h
      · simp
      · exact ih h
    · rw [splitC, if_neg hc] at h
      cases hs : splitC sep cs with
      | nil => exact absurd hs (splitC_ne_nil sep cs)
      | cons t ts =>
        rw [hs] at h
        have ht : t ∈ splitC sep cs := by rw [hs]; exact List.mem_cons_self t ts
        rcases List.mem_cons.mp h with rfl | h
        · intro hmem
          rcases List.mem_cons.mp hmem with h1 | hmem
          · exact hc h1.symm
          · exact ih ht hmem
        · have : l ∈ splitC sep cs := by rw [hs]; exact List.mem_cons_of_mem t h
          exact ih this

theorem splitC_eq_single {sep : Char} {l : List Char} (h : sep ∉ l) :
    splitC sep l = [l] := by
  induction l with
  | nil => rfl
  | cons c cs ih =>
    have hc : ¬c = sep := fun hc => h (hc ▸ List.mem_cons_self c cs)
    rw [splitC, if_neg hc, ih (fun hm => h (List.mem_cons_of_mem c hm))]

theorem splitC_append_sep {sep : Char} {l r : List Char} (h : sep ∉ l) :
    splitC sep (l ++ sep :: r) = l :: splitC sep r := by
  induction l with
  | nil => simp [splitC]
  | cons c cs ih =>
    have hc : ¬c = sep := fun hc => h (hc ▸ List.mem_cons_self c cs)
    rw [List.cons_append, splitC, if_neg hc, ih (fun hm => h (List.mem_cons_of_mem c hm))]

theorem splitC_joinC {sep : Char} : ∀ (L : List (List Char)), L ≠ [] →
    (∀ l ∈ L, sep ∉ l) → splitC sep (joinC sep L) = L
  | [], h, _ => absurd rfl h
  | [l], _, hmem => by
    rw [joinC, splitC_eq_single (hmem l (List.mem_singleton_self l))]
  | l :: l' :: L, _, hmem => by
    rw [joinC, splitC_append_sep (hmem l (List.mem_cons_self _ _)),
      splitC_joinC (l' :: L) (by simp) (fun x hx => hmem x (List.mem_cons_of_mem _ hx))]

theorem jsSplit_joinNL {ls : List String} (h1 : ls ≠ [])
    (h2 : ∀ l ∈ ls, '\n' ∉ l.data) : jsSplit '\n' (joinNL ls) = ls := by
  unfold jsSplit joinNL
  have hne : ls.map String.data ≠ [] := by
    intro h
    exact h1 (List.map_eq_nil_iff.mp h)
  have hmem : ∀ l ∈ ls.map String.data, '\n' ∉ l := by
    intro l hl
    rcases List.mem_map.mp hl with ⟨s, hs, rfl⟩
    exact h2 s hs
  rw [show (String.mk (joinC '\n' (ls.map String.data))).data
      = joinC '\n' (ls.map String.data) from rfl]
  rw [splitC_joinC (ls.map String.data) hne hmem, List.map_map,
    show ((fun cs => (⟨cs⟩ : String)) ∘ String.data) = id from funext string_mk_data,
    List.map_id]

theorem nl_not_mem_of_mem_jsSplit {s : String} {l : String}
    (h : l ∈ jsSplit '\n' s) : '\n' ∉ l.data := by
  rcases List.mem_map.mp h with ⟨cs, hcs, rfl⟩
  exact sep_not_mem_of_mem_splitC hcs

theorem jsSplit_ne_nil (sep : Char) (s : String) : jsSplit sep s ≠ [] := by
  unfold jsSplit
  intro h
  exact splitC_ne_nil sep s.data (List.map_eq_nil_iff.mp h)

/-! ### Helper lemmas about findIndex and the blank-skipping loop -/

theorem findIdxOpt_eq_none_iff {p : String → Bool} {l : List String} :
    findIdxOpt p l = none ↔ ∀ a ∈ l, p a = false := by
  induction l with
  | nil => simp [findIdxOpt]
  | cons x xs ih =>
    by_cases hx : p x
    · rw [findIdxOpt, if_pos hx]
      simp [hx]
    · rw [findIdxOpt, if_neg hx]
      simp only [Option.map_eq_none', ih, List.mem_cons]
      constructor
      · intro h a ha
        rcases ha with rfl | ha
        · exact Bool.of_not_eq_true hx
        · exact h a ha
      · intro h a ha
        exact h a (Or.inr ha)

theorem findIdxOpt_eq_some_iff {p : String → Bool} {l : List String} {i : Nat} :
    findIdxOpt p l = some i ↔
      ∃ l₁ a l₂, l = l₁ ++ a :: l₂ ∧ l₁.length = i ∧ p a = true ∧
        ∀ b ∈ l₁, p b = false := by
  induction l generalizing i with
  | nil =>
    constructor
    · intro h
      simp [findIdxOpt] at h
    · rintro ⟨l₁, a, l₂, heq, -, -, -⟩
      exact absurd heq (by simp)
  | cons x xs ih =>
    by_cases hx : p x
    · rw [findIdxOpt, if_pos hx]
      constructor
      · intro h
        injection h with h
        exact ⟨[], x, xs, rfl, h, hx, by simp⟩
      · rintro ⟨l₁, a, l₂, heq, hlen, hpa, hall⟩
        cases l₁ with
        | nil =>
          simp only [List.nil_append, List.cons.injEq] at heq
          simp [← hlen]
        | cons y l₁ =>
          simp only [List.cons_append, List.cons.injEq] at heq
          exact absurd hx (by rw [heq.1]; simp [hall y (List.mem_cons_self y l₁)])
    · rw [findIdxOpt, if_neg hx]
      constructor
      · intro h
        rcases Option.map_eq_some'.mp h with ⟨j, hj, hji⟩
        obtain ⟨l₁, a, l₂, heq, hlen, hpa, hall⟩ := ih.mp hj
        refine ⟨x :: l₁, a, l₂, by simp [heq], by simp [hlen, hji], hpa, ?_⟩
        intro b hb
        rcases List.mem_cons.mp hb with rfl | hb
        · exact Bool.of_not_eq_true hx
        · exact hall b hb
      · rintro ⟨l₁, a, l₂, heq, hlen, hpa, hall⟩
        cases l₁ with
        | nil =>
          simp only [List.nil_append, List.cons.injEq] at heq
          exact absurd hx (by rw [heq.1]; simp [hpa])
        | cons y l₁ =>
          simp only [List.cons_append, List.cons.injEq] at heq
          have : findIdxOpt p xs = some l₁.length :=
            ih.mpr ⟨l₁, a, l₂, heq.2, rfl, hpa, fun b hb => hall b (List.mem_cons_of_mem y hb)⟩
          rw [this]
          simp only [Option.map_some']
          simp [← hlen]

theorem countLeadingBlank_le (ls : List String) : countLeadingBlank ls ≤ ls.length := by
  induction ls with
  | nil => simp [countLeadingBlank]
  | cons x xs ih =>
    rw [countLeadingBlank]
    split
    · simpa using ih
    · simp

theorem blank_of_mem_take_countLeadingBlank :
    ∀ {ls : List String} {l : String},
      l ∈ ls.take (countLeadingBlank ls) → isBlank l = true := by
  intro ls
  induction ls with
  | nil => simp
  | cons x xs ih =>
    intro l hl
    rw [countLeadingBlank] at hl
    by_cases hb : isBlank x
    · rw [if_pos hb, List.take_succ_cons] at hl
      rcases List.mem_cons.mp hl with rfl | hl
      · exact hb
      · exact ih hl
    · rw [if_neg hb] at hl
      simp at hl

theorem drop_countLeadingBlank (ls : List String) :
    ls.drop (countLeadingBlank ls) = [] ∨
      ∃ c cs, ls.drop (countLeadingBlank ls) = c :: cs ∧ isBlank c = false := by
  induction ls with
  | nil => exact Or.inl rfl
  | cons x xs ih =>
    by_cases hb : isBlank x
    · rw [countLeadingBlank, if_pos hb, List.drop_succ_cons]
      exact ih
    · rw [countLeadingBlank, if_neg hb, List.drop_zero]
      exact Or.inr ⟨x, xs, rfl, Bool.of_not_eq_true hb⟩

theorem countLeadingBlank_append_blank {A B : List String}
    (h : ∀ l ∈ A, isBlank l = true) :
    countLeadingBlank (A ++ B) = A.length + countLeadingBlank B := by
  induction A with
  | nil => simp
  | cons a A ih =>
    rw [List.cons_append, countLeadingBlank, if_pos (h a (List.mem_cons_self a A)),
      ih (fun l hl => h l (List.mem_cons_of_mem a hl))]
    simp [Nat.add_assoc, Nat.add_comm 1]

theorem countLeadingBlank_cons_nonblank {x : String} {xs : List String}
    (h : isBlank x = false) : countLeadingBlank (x :: xs) = 0 := by
  rw [countLeadingBlank, if_neg (by simp [h])]

theorem take_drop_middle (A : List String) (hd : String) (B : List String) (k : Nat) :
    (A ++ hd :: B).take (A.length + 1 + k) = A ++ hd :: B.take k ∧
    (A ++ hd :: B).drop (A.length + 1 + k) = B.drop k := by
  have h1 : A ++ hd :: B = (A ++ [hd]) ++ B := by simp
  have h2 : A.length + 1 + k = (A ++ [hd]).length + k := by simp
  rw [h1, h2, List.take_append, List.drop_append]
  simp

theorem insertChangelogEntry_eq_splice {doc : String} (entry : List String) {idx : Nat}
    (h : findIdxOpt isChangelogHeading (jsSplit '\n' doc) = some idx) :
    insertChangelogEntry doc entry =
      .ok (joinNL ((jsSplit '\n' doc).take (insertPos (jsSplit '\n' doc) idx)
        ++ entry ++ [""] ++ (jsSplit '\n' doc).drop (insertPos (jsSplit '\n' doc) idx))) := by
  simp only [insertChangelogEntry, h]

/-! ### Version-calculator lemmas -/

theorem intToChars_natCast (n : Nat) : intToChars (n : Int) = natToChars n := by
  rw [intToChars, if_neg (by omega), Int.toNat_ofNat]

theorem intToChars_natCast_add_one (n : Nat) :
    intToChars ((n : Int) + 1) = natToChars (n + 1) := by
  rw [intToChars, if_neg (by omega), Int.toNat_ofNat_add_one]

theorem natToChars_zero : natToChars 0 = ['0'] := by decide

theorem jsIsNaN_jsParseInt10 (c : List Char) :
    jsIsNaN (jsParseInt10 c) = (parseIntChars c).isNone := by
  cases h : parseIntChars c <;> simp [jsParseInt10, h, jsIsNaN]

/-- Claim C1: on a current version that splits into exactly three
dot-separated components, each parsing as a non-negative integer,
`bumpVersionString` performs exactly the documented transformation for
each bump kind, preserving the untouched components. -/
theorem bumpVersionString_valid_triple
    (cur : String) (c1 c2 c3 : List Char) (x y z : Nat)
    (hs : splitC '.' cur.data = [c1, c2, c3])
    (h1 : parseIntChars c1 = some (x : Int))
    (h2 : parseIntChars c2 = some (y : Int))
    (h3 : parseIntChars c3 = some (z : Int)) :
    bumpVersionString cur "major" = .ok (versionString (x + 1) 0 0) ∧
    bumpVersionString cur "minor" = .ok (versionString x (y + 1) 0) ∧
    bumpVersionString cur "patch" = .ok (versionString x y (z + 1)) := by
  have e1 : jsParseInt10 c1 = .num (x : Int) := by rw [jsParseInt10, h1]
  have e2 : jsParseInt10 c2 = .num (y : Int) := by rw [jsParseInt10, h2]
  have e3 : jsParseInt10 c3 = .num (z : Int) := by rw [jsParseInt10, h3]
  refine ⟨?_, ?_, ?_⟩ <;>
  · simp only [bumpVersionString, hs, List.map_cons, List.map_nil, e1, e2, e3,
      List.getD_cons_zero, List.getD_cons_succ, jsIsNaN, Bool.or_self, Bool.or_false,
      Bool.false_or, if_false, jnumAdd1, jnumChars, versionString,
      intToChars_natCast, intToChars_natCast_add_one, natToChars_zero]
    simp [String.ext_iff]

/-- Witness for C1: the three scenario instances from the specification. -/
theorem bumpVersionString_scenarios :
    bumpVersionString "2.3.9" "minor" = .ok "2.4.0" ∧
    bumpVersionString "0.0.9" "patch" = .ok "0.0.10" ∧
    bumpVersionString "1.9.9" "major" = .ok "2.0.0" := by
  refine ⟨?_, ?_, ?_⟩
  · exact ((bumpVersionString_valid_triple "2.3.9" ['2'] ['3'] ['9'] 2 3 9
      (by decide) (by decide) (by decide) (by decide)).2.1).trans
      (congrArg Except.ok (by decide))
  · exact ((bumpVersionString_valid_triple "0.0.9" ['0'] ['0'] ['9'] 0 0 9
      (by decide) (by decide) (by decide) (by decide)).2.2).trans
      (congrArg Except.ok (by decide))
  · exact ((bumpVersionString_valid_triple "1.9.9" ['1'] ['9'] ['9'] 1 9 9
      (by decide) (by decide) (by decide) (by decide)).1).trans
      (congrArg Except.ok (by decide))

/-- Counterexample to claim C3 as stated: a version with four components
("1.2.3.4") does not fail — the destructuring silently ignores the extra
component — and neither does one with only two components ("1.2") when
the bump is major, since `Number.isNaN(undefined)` is false. -/
theorem bumpVersionString_extra_components_ok :
    bumpVersionString "1.2.3.4" "patch" = .ok "1.2.4" ∧
    bumpVersionString "1.2" "major" = .ok "2.0.0" :=
  ⟨rfl, rfl⟩

theorem bumpVersionString_isError (cur bump : String) :
    (∃ e, bumpVersionString cur bump = .error e) ↔
      (jsIsNaN (((splitC '.' cur.data).map jsParseInt10).getD 0 .undef) ||
       jsIsNaN (((splitC '.' cur.data).map jsParseInt10).getD 1 .undef) ||
       jsIsNaN (((splitC '.' cur.data).map jsParseInt10).getD 2 .undef)) = true := by
  simp only [bumpVersionString]
  by_cases h : (jsIsNaN (((splitC '.' cur.data).map jsParseInt10).getD 0 .undef) ||
      jsIsNaN (((splitC '.' cur.data).map jsParseInt10).getD 1 .undef) ||
      jsIsNaN (((splitC '.' cur.data).map jsParseInt10).getD 2 .undef)) = true
  · rw [if_pos h]
    exact iff_of_true ⟨_, rfl⟩ h
  · rw [if_neg h]
    refine iff_of_false ?_ h
    rintro ⟨e, he⟩
    split at he
    · simp at he
    · split at he <;> simp at he

/-- Claim C3 amended: `bumpVersionString` fails (for every bump kind)
exactly when one of the first three dot-separated components of the
current version parses to NaN; extra components are ignored and missing
components pass the check as `undefined`. -/
theorem bumpVersionString_error_iff (cur bump : String) :
    (∃ e, bumpVersionString cur bump = .error e) ↔
      ∃ c ∈ (splitC '.' cur.data).take 3, parseIntChars c = none := by
  rw [bumpVersionString_isError]
  rcases hp : splitC '.' cur.data with _ | ⟨p0, _ | ⟨p1, _ | ⟨p2, rest⟩⟩⟩
  · exact absurd hp (splitC_ne_nil '.' cur.data)
  · simp [jsIsNaN_jsParseInt10, show jsIsNaN JNum.undef = false from rfl,
      Option.isNone_iff_eq_none]
  · simp [jsIsNaN_jsParseInt10, show jsIsNaN JNum.undef = false from rfl,
      Option.isNone_iff_eq_none]
  · simp [jsIsNaN_jsParseInt10, Option.isNone_iff_eq_none, List.take_succ_cons]
    exact or_assoc

/-- Witness for the amended C3: applying it at the failing component
"a" of "a.2.3" produces the existential directly. -/
theorem bumpVersionString_error_iff_example :
    ∃ c ∈ (splitC '.' ("a.2.3" : String).data).take 3, parseIntChars c = none :=
  (bumpVersionString_error_iff "a.2.3" "patch").mp
    ⟨"Invalid version in package.json: a.2.3", rfl⟩

/-! ### Changelog-editor claims -/

/-- Claim C2: on a document containing a Changelog heading line and a
non-empty entry, `insertChangelogEntry` splices the entry lines plus one
blank line immediately before the first non-blank line after the heading:
the document decomposes as non-heading lines `A`, the heading `hd`, the
blank run `Bl`, and the rest `C` (whose first line, if any, is
non-blank), and the output is that decomposition with the entry and a
blank line inserted between `Bl` and `C`. -/
theorem insertChangelogEntry_after_heading_blanks
    (doc : String) (entry : List String)
    (hentry : entry ≠ [])
    (hhead : ∃ l ∈ jsSplit '\n' doc, isChangelogHeading l = true) :
    ∃ A hd Bl C,
      jsSplit '\n' doc = A ++ hd :: (Bl ++ C) ∧
      (∀ b ∈ A, isChangelogHeading b = false) ∧
      isChangelogHeading hd = true ∧
      (∀ b ∈ Bl, isBlank b = true) ∧
      (∀ c cs, C = c :: cs → isBlank c = false) ∧
      insertChangelogEntry doc entry =
        .ok (joinNL (A ++ hd :: (Bl ++ (entry ++ [""] ++ C)))) := by
  obtain ⟨l0, hl0, hp0⟩ := hhead
  cases hfind : findIdxOpt isChangelogHeading (jsSplit '\n' doc) with
  | none => exact absurd (findIdxOpt_eq_none_iff.mp hfind l0 hl0) (by simp [hp0])
  | some idx =>
    obtain ⟨A, hd, B, hsplit, hlen, hphd, hA⟩ := findIdxOpt_eq_some_iff.mp hfind
    subst hlen
    refine ⟨A, hd, B.take (countLeadingBlank B), B.drop (countLeadingBlank B),
      by rw [hsplit, List.take_append_drop],
      hA, hphd, fun b hb => blank_of_mem_take_countLeadingBlank hb, ?_, ?_⟩
    · intro c cs hc
      rcases drop_countLeadingBlank B with h | ⟨c', cs', h, hblank⟩
      · rw [h] at hc
        simp at hc
      · rw [h] at hc
        injection hc with h1 _
        rw [← h1]
        exact hblank
    · have hdrop1 : (jsSplit '\n' doc).drop (A.length + 1) = B := by
        rw [hsplit, show A ++ hd :: B = (A ++ [hd]) ++ B by simp,
          List.drop_left' (by simp)]
      have hpos : insertPos (jsSplit '\n' doc) A.length
          = A.length + 1 + countLeadingBlank B := by
        rw [insertPos, hdrop1]
      have htd := take_drop_middle A hd B (countLeadingBlank B)
      rw [insertChangelogEntry_eq_splice entry hfind, hpos, hsplit, htd.1, htd.2]
      simp [List.append_assoc]

/-- Witness for C2: the claim instantiated on the specification's
scenario document and entry, plus the resulting concrete output. -/
theorem insertChangelogEntry_after_heading_blanks_example :
    (∃ A hd Bl C,
      jsSplit '\n' "# Changelog\n\n## 1.0.0\n\n- Initial\n" = A ++ hd :: (Bl ++ C) ∧
      (∀ b ∈ A, isChangelogHeading b = false) ∧
      isChangelogHeading hd = true ∧
      (∀ b ∈ Bl, isBlank b = true) ∧
      (∀ c cs, C = c :: cs → isBlank c = false) ∧
      insertChangelogEntry "# Changelog\n\n## 1.0.0\n\n- Initial\n"
          ["## 1.1.0", "", "- Added X"] =
        .ok (joinNL (A ++ hd :: (Bl ++ (["## 1.1.0", "", "- Added X"] ++ [""] ++ C))))) ∧
    insertChangelogEntry "# Changelog\n\n## 1.0.0\n\n- Initial\n"
        ["## 1.1.0", "", "- Added X"] =
      .ok "# Changelog\n\n## 1.1.0\n\n- Added X\n\n## 1.0.0\n\n- Initial\n" :=
  ⟨insertChangelogEntry_after_heading_blanks "# Changelog\n\n## 1.0.0\n\n- Initial\n"
      ["## 1.1.0", "", "- Added X"] (by decide) ⟨"# Changelog", by decide, by decide⟩,
   rfl⟩

/-- Claim C4: `insertChangelogEntry` fails with the StructureError
message exactly on documents with no line passing the Changelog-heading
test, and succeeds whenever some line passes it. -/
theorem insertChangelogEntry_heading_presence (doc : String) (entry : List String) :
    ((∀ l ∈ jsSplit '\n' doc, isChangelogHeading l = false) →
      insertChangelogEntry doc entry =
        .error "Could not find \"# Changelog\" section in README.md") ∧
    ((∃ l ∈ jsSplit '\n' doc, isChangelogHeading l = true) →
      ∃ out, insertChangelogEntry doc entry = .ok out) := by
  constructor
  · intro h
    simp [insertChangelogEntry, findIdxOpt_eq_none_iff.mpr h]
  · rintro ⟨l0, hl0, hp0⟩
    cases hfind : findIdxOpt isChangelogHeading (jsSplit '\n' doc) with
    | none => exact absurd (findIdxOpt_eq_none_iff.mp hfind l0 hl0) (by simp [hp0])
    | some idx => exact ⟨_, insertChangelogEntry_eq_splice entry hfind⟩

/-- Witness for C4: a document with no heading fails; one with a heading
succeeds. -/
theorem insertChangelogEntry_heading_presence_example :
    insertChangelogEntry "no heading here\n\n## 1.0.0" ["x"] =
      .error "Could not find \"# Changelog\" section in README.md" ∧
    ∃ out, insertChangelogEntry "intro\n# Changelog\n" ["x"] = .ok out :=
  ⟨(insertChangelogEntry_heading_presence "no heading here\n\n## 1.0.0" ["x"]).1
      (by decide),
   (insertChangelogEntry_heading_presence "intro\n# Changelog\n" ["x"]).2
      ⟨"# Changelog", by decide, by decide⟩⟩

/-- Claim C5: on a document containing a Changelog heading, the output
is the original line sequence split at one position, with the entry lines
and one blank line spliced in between: every line before and after the
insertion point is preserved verbatim and in order. -/
theorem insertChangelogEntry_frame (doc : String) (entry : List String)
    (hhead : ∃ l ∈ jsSplit '\n' doc, isChangelogHeading l = true) :
    ∃ pre post, pre ++ post = jsSplit '\n' doc ∧
      insertChangelogEntry doc entry = .ok (joinNL (pre ++ entry ++ [""] ++ post)) := by
  obtain ⟨l0, hl0, hp0⟩ := hhead
  cases hfind : findIdxOpt isChangelogHeading (jsSplit '\n' doc) with
  | none => exact absurd (findIdxOpt_eq_none_iff.mp hfind l0 hl0) (by simp [hp0])
  | some idx =>
    exact ⟨_, _, List.take_append_drop _ _, insertChangelogEntry_eq_splice entry hfind⟩

/-- Witness for C5: the frame property instantiated on a concrete
document. -/
theorem insertChangelogEntry_frame_example :
    ∃ pre post,
      pre ++ post = jsSplit '\n' "intro\n# Changelog\n\n## 1.0.0\n" ∧
      insertChangelogEntry "intro\n# Changelog\n\n## 1.0.0\n" ["## 1.1.0"] =
        .ok (joinNL (pre ++ ["## 1.1.0"] ++ [""] ++ post)) :=
  insertChangelogEntry_frame "intro\n# Changelog\n\n## 1.0.0\n" ["## 1.1.0"]
    ⟨"# Changelog", by decide, by decide⟩

/-- Counterexample to claim C6 as stated: when the first entry's first
line is blank, the second insertion's blank-skipping walks into the first
entry, so the second entry is spliced inside it rather than placed
adjacent before it.  Here the actual result differs from the claimed
shape (prefix, then the newer entry, a blank, the older entry, a blank,
then the rest). -/
theorem insertChangelogEntry_twice_splits_blank_entry :
    (insertChangelogEntry "# Changelog\n\n## 1.0.0\n" ["", "- x"]).bind
        (fun d => insertChangelogEntry d ["## 2.0.0"]) ≠
      .ok (joinNL ((jsSplit '\n' "# Changelog\n\n## 1.0.0\n").take
            (insertPos (jsSplit '\n' "# Changelog\n\n## 1.0.0\n") 0)
          ++ ["## 2.0.0"] ++ [""] ++ ["", "- x"] ++ [""]
          ++ (jsSplit '\n' "# Changelog\n\n## 1.0.0\n").drop
            (insertPos (jsSplit '\n' "# Changelog\n\n## 1.0.0\n") 0))) := by
  intro h
  have h1 : (insertChangelogEntry "# Changelog\n\n## 1.0.0\n" ["", "- x"]).bind
      (fun d => insertChangelogEntry d ["## 2.0.0"]) =
      (.ok "# Changelog\n\n\n## 2.0.0\n\n- x\n\n## 1.0.0\n" : Except String String) := rfl
  have h2 : (.ok (joinNL ((jsSplit '\n' "# Changelog\n\n## 1.0.0\n").take
        (insertPos (jsSplit '\n' "# Changelog\n\n## 1.0.0\n") 0)
      ++ ["## 2.0.0"] ++ [""] ++ ["", "- x"] ++ [""]
      ++ (jsSplit '\n' "# Changelog\n\n## 1.0.0\n").drop
        (insertPos (jsSplit '\n' "# Changelog\n\n## 1.0.0\n") 0))) :
        Except String String) =
      .ok "# Changelog\n\n## 2.0.0\n\n\n- x\n\n## 1.0.0\n" := rfl
  rw [h1, h2] at h
  exact absurd (Except.ok.inj h) (by decide)

/-- Claim C6 amended: sequential insertion places both entries directly
under the heading, newest first, provided the first entry's first line is
non-blank (otherwise the second insertion's blank-skipping walks into the
first entry) and the entry lines contain no embedded newline (they are
lines).  The combined result is prefix, newer entry, blank, older entry,
blank, rest. -/
theorem insertChangelogEntry_twice_newest_first
    (doc : String) (e1h : String) (e1t e2 : List String) (idx : Nat)
    (hfind : findIdxOpt isChangelogHeading (jsSplit '\n' doc) = some idx)
    (he1h : isBlank e1h = false)
    (hnl : ∀ l ∈ e1h :: e1t, '\n' ∉ l.data) :
    (insertChangelogEntry doc (e1h :: e1t)).bind
        (fun d => insertChangelogEntry d e2) =
      .ok (joinNL ((jsSplit '\n' doc).take (insertPos (jsSplit '\n' doc) idx)
        ++ e2 ++ [""] ++ (e1h :: e1t) ++ [""]
        ++ (jsSplit '\n' doc).drop (insertPos (jsSplit '\n' doc) idx))) := by
  obtain ⟨A, hd, B, hsplit, hlen, hphd, hA⟩ := findIdxOpt_eq_some_iff.mp hfind
  subst hlen
  have hkB : countLeadingBlank B ≤ B.length := countLeadingBlank_le B
  have hdrop1 : (jsSplit '\n' doc).drop (A.length + 1) = B := by
    rw [hsplit, show A ++ hd :: B = (A ++ [hd]) ++ B by simp,
      List.drop_left' (by simp)]
  have hpos : insertPos (jsSplit '\n' doc) A.length
      = A.length + 1 + countLeadingBlank B := by
    rw [insertPos, hdrop1]
  have htd := take_drop_middle A hd B (countLeadingBlank B)
  -- the line list of the intermediate document
  have h1 := insertChangelogEntry_eq_splice (e1h :: e1t) hfind
  rw [hpos, hsplit, htd.1, htd.2] at h1
  rw [h1]
  show insertChangelogEntry
      (joinNL ((A ++ hd :: B.take (countLeadingBlank B))
        ++ (e1h :: e1t) ++ [""] ++ B.drop (countLeadingBlank B))) e2 = _
  -- the intermediate document re-splits into the same line list
  have hmemlines : ∀ l ∈ (A ++ hd :: B.take (countLeadingBlank B))
      ++ (e1h :: e1t) ++ [""] ++ B.drop (countLeadingBlank B), '\n' ∉ l.data := by
    intro l hl
    have hout : l ∈ jsSplit '\n' doc ∨ l ∈ e1h :: e1t ∨ l = "" := by
      rcases List.mem_append.mp hl with hl | hl
      · rcases List.mem_append.mp hl with hl | hl
        · rcases List.mem_append.mp hl with hl | hl
          · left
            rw [hsplit, ← List.take_append_drop (countLeadingBlank B) B]
            rcases List.mem_append.mp hl with h | h
            · exact List.mem_append_left _ h
            · rcases List.mem_cons.mp h with rfl | h
              · exact List.mem_append_right _ (List.mem_cons_self _ _)
              · exact List.mem_append_right _
                  (List.mem_cons_of_mem _ (List.mem_append_left _ h))
          · exact Or.inr (Or.inl hl)
        · simp only [List.mem_singleton] at hl
          exact Or.inr (Or.inr hl)
      · left
        rw [hsplit, ← List.take_append_drop (countLeadingBlank B) B]
        exact List.mem_append_right _
          (List.mem_cons_of_mem _ (List.mem_append_right _ hl))
    rcases hout with h | h | h
    · exact nl_not_mem_of_mem_jsSplit h
    · exact hnl l h
    · subst h
      simp
  have hresplit : jsSplit '\n' (joinNL ((A ++ hd :: B.take (countLeadingBlank B))
      ++ (e1h :: e1t) ++ [""] ++ B.drop (countLeadingBlank B)))
      = (A ++ hd :: B.take (countLeadingBlank B))
        ++ (e1h :: e1t) ++ [""] ++ B.drop (countLeadingBlank B) :=
    jsSplit_joinNL (by simp) hmemlines
  -- the heading is found at the same index in the intermediate document
  have hfind2 : findIdxOpt isChangelogHeading
      (jsSplit '\n' (joinNL ((A ++ hd :: B.take (countLeadingBlank B))
        ++ (e1h :: e1t) ++ [""] ++ B.drop (countLeadingBlank B)))) = some A.length := by
    rw [hresplit]
    exact findIdxOpt_eq_some_iff.mpr
      ⟨A, hd, B.take (countLeadingBlank B) ++ ((e1h :: e1t) ++ [""]
          ++ B.drop (countLeadingBlank B)),
        by simp [List.append_assoc], rfl, hphd, hA⟩
  -- the blank-skipping run of the intermediate document is the same
  have hlen1 : (A ++ hd :: B.take (countLeadingBlank B)).length
      = A.length + 1 + countLeadingBlank B := by
    simp [Nat.min_eq_left hkB]
    omega
  have hpos2 : insertPos (jsSplit '\n' (joinNL ((A ++ hd :: B.take (countLeadingBlank B))
      ++ (e1h :: e1t) ++ [""] ++ B.drop (countLeadingBlank B)))) A.length
      = A.length + 1 + countLeadingBlank B := by
    rw [insertPos, hresplit]
    have hd1 : ((A ++ hd :: B.take (countLeadingBlank B))
        ++ (e1h :: e1t) ++ [""] ++ B.drop (countLeadingBlank B)).drop (A.length + 1)
        = B.take (countLeadingBlank B) ++ ((e1h :: e1t) ++ [""]
            ++ B.drop (countLeadingBlank B)) := by
      rw [show (A ++ hd :: B.take (countLeadingBlank B))
          ++ (e1h :: e1t) ++ [""] ++ B.drop (countLeadingBlank B)
          = (A ++ [hd]) ++ (B.take (countLeadingBlank B) ++ ((e1h :: e1t) ++ [""]
            ++ B.drop (countLeadingBlank B))) by simp [List.append_assoc],
        List.drop_left' (by simp)]
    rw [hd1, countLeadingBlank_append_blank
        (fun l hl => blank_of_mem_take_countLeadingBlank hl)]
    simp only [List.cons_append]
    rw [countLeadingBlank_cons_nonblank he1h]
    simp [Nat.min_eq_left hkB]
  -- apply the splice description to the second insertion
  rw [insertChangelogEntry_eq_splice e2 hfind2, hpos2, hresplit]
  rw [show (A ++ hd :: B.take (countLeadingBlank B))
      ++ (e1h :: e1t) ++ [""] ++ B.drop (countLeadingBlank B)
      = (A ++ hd :: B.take (countLeadingBlank B)) ++ ((e1h :: e1t) ++ [""]
        ++ B.drop (countLeadingBlank B)) by simp [List.append_assoc]]
  rw [List.take_left' hlen1, List.drop_left' hlen1]
  rw [hpos, hsplit, htd.1, htd.2]
  simp [List.append_assoc]

/-- Witness for the amended C6: two concrete entries inserted in
sequence land adjacent, newest first, directly under the heading. -/
theorem insertChangelogEntry_twice_newest_first_example :
    (insertChangelogEntry "# Changelog\n\n## 1.0.0\n\n- Initial\n"
        ["## 1.1.0", "", "- x1"]).bind
      (fun d => insertChangelogEntry d ["## 1.2.0", "", "- y2"]) =
    .ok ("# Changelog\n\n## 1.2.0\n\n- y2\n\n## 1.1.0\n\n- x1\n\n"
      ++ "## 1.0.0\n\n- Initial\n") :=
  (insertChangelogEntry_twice_newest_first "# Changelog\n\n## 1.0.0\n\n- Initial\n"
    "## 1.1.0" ["", "- x1"] ["## 1.2.0", "", "- y2"] 0
    (by decide) (by decide) (by decide)).trans (congrArg Except.ok (by decide))

/-! ### Advisor-response validation (C7) -/

theorem isOk_error {ε α : Type} (e : ε) : (Except.error e : Except ε α).isOk = false :=
  rfl

theorem isOk_ok {ε α : Type} (a : α) : (Except.ok a : Except ε α).isOk = true :=
  rfl

/-- Claim C7: the validation rejects a missing or unrecognized bump, a
missing reasoning, and a missing or non-array notes field — substituting
no default — and in the missing-notes case the confirmation prompt is
never reached; a response with a recognized bump string, a non-empty
reasoning string, and an array notes field is accepted. -/
theorem validateOpenAIResponse_strict (p : AdvisorResponse) :
    (p.bump = none → (validateOpenAIResponse p).isOk = false) ∧
    (∀ j, p.bump = some j → includesBumpKeyword (some j) = false →
      (validateOpenAIResponse p).isOk = false) ∧
    (p.reasoning = none → (validateOpenAIResponse p).isOk = false) ∧
    (p.notes = none → (validateOpenAIResponse p).isOk = false ∧
      confirmPromptReached p = false) ∧
    (∀ j, p.notes = some j → isArrayOpt (some j) = false →
      (validateOpenAIResponse p).isOk = false) ∧
    (∀ b r l, p.bump = some (.str b) → (b = "major" ∨ b = "minor" ∨ b = "patch") →
      p.reasoning = some (.str r) → r ≠ "" → p.notes = some (.arr l) →
      (validateOpenAIResponse p).isOk = true) := by
  refine ⟨?_, ?_, ?_, ?_, ?_, ?_⟩
  · intro h
    simp [validateOpenAIResponse, h, jsTruthyOpt, isOk_error]
  · intro j h1 h2
    simp [validateOpenAIResponse, h1, h2, isOk_error]
  · intro h
    unfold validateOpenAIResponse
    split
    · exact isOk_error _
    · simp [h, jsTruthyOpt, isOk_error]
  · intro h
    have hfail : (validateOpenAIResponse p).isOk = false := by
      unfold validateOpenAIResponse
      split
      · exact isOk_error _
      · split
        · exact isOk_error _
        · simp [h, jsTruthyOpt, isOk_error]
    exact ⟨hfail, hfail⟩
  · intro j h1 h2
    unfold validateOpenAIResponse
    split
    · exact isOk_error _
    · split
      · exact isOk_error _
      · simp [h1, h2, isOk_error]
  · intro b r l hb hbk hr hrne hn
    rcases hbk with rfl | rfl | rfl <;>
      simp [validateOpenAIResponse, hb, hr, hn, jsTruthyOpt, jsTruthy,
        includesBumpKeyword, isArrayOpt, hrne, isOk_ok]

/-- Witness for C7: a response missing notes fails before the prompt; a
fully valid response is accepted. -/
theorem validateOpenAIResponse_strict_example :
    (validateOpenAIResponse ⟨some (.str "minor"), some (.str "reason"), none⟩).isOk
        = false ∧
    confirmPromptReached ⟨some (.str "minor"), some (.str "reason"), none⟩ = false ∧
    (validateOpenAIResponse ⟨some (.str "minor"), some (.str "reason"),
        some (.arr [.str "Add x"])⟩).isOk = true := by
  refine ⟨?_, ?_, ?_⟩
  · exact ((validateOpenAIResponse_strict
      ⟨some (.str "minor"), some (.str "reason"), none⟩).2.2.2.1 rfl).1
  · exact ((validateOpenAIResponse_strict
      ⟨some (.str "minor"), some (.str "reason"), none⟩).2.2.2.1 rfl).2
  · exact (validateOpenAIResponse_strict
      ⟨some (.str "minor"), some (.str "reason"), some (.arr [.str "Add x"])⟩)
      |>.2.2.2.2.2 "minor" "reason" [.str "Add x"] rfl (Or.inr (Or.inl rfl)) rfl
        (by decide) rfl

/-! ### Confirmation prompt (C8) -/

/-- Counterexample to claim C8 as stated: the raw reply "NO" is none of
the literal replies the claim enumerates, so the claim makes it an
acceptance of the suggested bump; the code lowercases the trimmed reply
first, maps it to "no", and aborts. -/
theorem confirmBump_uppercase_no_aborts :
    confirmBump "NO" "patch" = none ∧ confirmBump "NO" "patch" ≠ some "patch" := by
  decide

/-- Claim C8 amended: replies are compared after trimming whitespace and
lowercasing; then an explicit bump keyword overrides the suggestion,
n/no aborts, and every other normalized reply — including the empty
string, y, and yes — accepts the suggested bump. -/
theorem confirmBump_cases (reply suggested : String) :
    ((jsToLower (jsTrim reply) = "major" ∨ jsToLower (jsTrim reply) = "minor" ∨
        jsToLower (jsTrim reply) = "patch") →
      confirmBump reply suggested = some (jsToLower (jsTrim reply))) ∧
    (¬(jsToLower (jsTrim reply) = "major" ∨ jsToLower (jsTrim reply) = "minor" ∨
        jsToLower (jsTrim reply) = "patch") →
      (jsToLower (jsTrim reply) = "n" ∨ jsToLower (jsTrim reply) = "no") →
      confirmBump reply suggested = none) ∧
    (¬(jsToLower (jsTrim reply) = "major" ∨ jsToLower (jsTrim reply) = "minor" ∨
        jsToLower (jsTrim reply) = "patch") →
      ¬(jsToLower (jsTrim reply) = "n" ∨ jsToLower (jsTrim reply) = "no") →
      confirmBump reply suggested = some suggested) := by
  refine ⟨fun h => ?_, fun h1 h2 => ?_, fun h1 h2 => ?_⟩
  · simp only [confirmBump]
    rw [if_pos h]
  · simp only [confirmBump]
    rw [if_neg h1, if_pos h2]
  · simp only [confirmBump]
    rw [if_neg h1, if_neg h2]

/-- Witness for the amended C8: one override (with trimming and
lowercasing), one abort, one empty-accept, one other-accept. -/
theorem confirmBump_cases_example :
    confirmBump " PATCH " "minor" = some "patch" ∧
    confirmBump "No" "minor" = none ∧
    confirmBump "" "minor" = some "minor" ∧
    confirmBump "anything" "minor" = some "minor" := by
  refine ⟨?_, ?_, ?_, ?_⟩
  · exact ((confirmBump_cases " PATCH " "minor").1 (by decide)).trans (by decide)
  · exact (confirmBump_cases "No" "minor").2.1 (by decide) (by decide)
  · exact (confirmBump_cases "" "minor").2.2 (by decide) (by decide)
  · exact (confirmBump_cases "anything" "minor").2.2 (by decide) (by decide)

/-! ### Temporary-file lifecycle (C9) -/

/-- Counterexample to claim C9 as stated: when `insertChangelogEntry`
throws (README without a Changelog heading) after the editor step, the
exception reaches the catch block, which exits without deleting the
temporary entry file: the run ends on the errorAfterEdit path with the
file still present. -/
theorem tempFile_leaked_on_insert_error :
    mainAfterTempCreated false true true "## 2.0.0" "no heading" =
      (.errorAfterEdit "Could not find \"# Changelog\" section in README.md", true) := by
  decide

/-- Claim C9 amended: the temporary entry file is gone on the
editor-launch-failure, editor-discard, dry-run, and successful-persist
exit paths, but an error thrown by the changelog insertion — after
editing and before the unlink call — leaves the file behind at exit. -/
theorem tempFile_cleanup_paths (dryRun editorOk savedExists : Bool)
    (editedEntry readme : String) :
    (editorOk = false →
      (mainAfterTempCreated dryRun editorOk savedExists editedEntry readme).2 = false) ∧
    (savedExists = false →
      (mainAfterTempCreated dryRun editorOk savedExists editedEntry readme).2 = false) ∧
    (dryRun = true →
      (mainAfterTempCreated dryRun editorOk savedExists editedEntry readme).2 = false) ∧
    (∀ out, insertChangelogEntry readme (entryLinesOf editedEntry) = .ok out →
      (mainAfterTempCreated dryRun editorOk savedExists editedEntry readme).2 = false) ∧
    (∀ e, insertChangelogEntry readme (entryLinesOf editedEntry) = .error e →
      editorOk = true → savedExists = true → dryRun = false →
      (mainAfterTempCreated dryRun editorOk savedExists editedEntry readme).2 = true) := by
  refine ⟨fun h => ?_, fun h => ?_, fun h => ?_, fun out h => ?_,
    fun e h h1 h2 h3 => ?_⟩
  · subst h
    simp [mainAfterTempCreated]
  · subst h
    cases editorOk <;> simp [mainAfterTempCreated]
  · subst h
    cases editorOk <;> cases savedExists <;> simp [mainAfterTempCreated]
  · cases editorOk <;> cases savedExists <;> cases dryRun <;>
      simp [mainAfterTempCreated, h]
  · subst h1
    subst h2
    subst h3
    simp [mainAfterTempCreated, h]

/-- Witness for the amended C9: the dry-run path removes the file; the
structure-error path leaves it. -/
theorem tempFile_cleanup_paths_example :
    (mainAfterTempCreated true true true "## 2.0.0" "# Changelog\n").2 = false ∧
    (mainAfterTempCreated false true true "## 2.0.0" "no heading").2 = true := by
  constructor
  · exact (tempFile_cleanup_paths true true true "## 2.0.0" "# Changelog\n").2.2.1 rfl
  · exact (tempFile_cleanup_paths false true true "## 2.0.0" "no heading").2.2.2.2
      "Could not find \"# Changelog\" section in README.md" rfl rfl rfl rfl

/-! ### Commit parsing (C10) -/

/-- Claim C10: `parseCommits` is total: the empty string and
whitespace-only records give the empty list, chunks blank after trimming
are dropped, every record comes from a non-blank trimmed chunk, the hash
field is always present, and missing subject/body fields default to the
empty string rather than an undefined value. -/
theorem parseCommits_total_defaults :
    parseCommits "" = [] ∧
    parseCommits "\x1e \x1e" = [] ∧
    (∀ raw r, r ∈ parseCommits raw → r.hash.isSome = true) ∧
    (∀ raw r, r ∈ parseCommits raw →
      ∃ chunk, chunk ∈ (jsSplit '\x1e' raw).map jsTrim ∧ (chunk == "") = false ∧
        r = mkCommitRecord chunk) ∧
    parseCommits "abc" = [{ hash := some "abc", subject := "", body := "" }] ∧
    parseCommits "h\x1fs" = [{ hash := some "h", subject := "s", body := "" }] := by
  refine ⟨by decide, by decide, ?_, ?_, by decide, by decide⟩
  · intro raw r hr
    unfold parseCommits at hr
    split at hr
    · simp at hr
    · obtain ⟨chunk, -, rfl⟩ := List.mem_map.mp hr
      cases hsp : jsSplit '\x1f' chunk with
      | nil => exact absurd hsp (jsSplit_ne_nil '\x1f' chunk)
      | cons a as => simp [mkCommitRecord, hsp]
  · intro raw r hr
    unfold parseCommits at hr
    split at hr
    · simp at hr
    · obtain ⟨chunk, hchunk, rfl⟩ := List.mem_map.mp hr
      obtain ⟨hmem, hne⟩ := List.mem_filter.mp hchunk
      exact ⟨chunk, hmem, by simpa using hne, rfl⟩

/-- Witness for C10: the per-record conjuncts applied to a concrete
parsed record. -/
theorem parseCommits_total_defaults_example :
    ({ hash := some "h", subject := "s", body := "" } : CommitRecord).hash.isSome
        = true ∧
    ∃ chunk, chunk ∈ (jsSplit '\x1e' "h\x1fs").map jsTrim ∧ (chunk == "") = false ∧
      ({ hash := some "h", subject := "s", body := "" } : CommitRecord)
        = mkCommitRecord chunk := by
  constructor
  · exact parseCommits_total_defaults.2.2.1 "h\x1fs"
      { hash := some "h", subject := "s", body := "" } (by decide)
  · exact parseCommits_total_defaults.2.2.2.1 "h\x1fs"
      { hash := some "h", subject := "s", body := "" } (by decide)

end ReleaseWithEase
